import Mathlib

/-! Pretty printer of scan results (`core/pkg/resultshandling/printer/v2/prettyprinter.go`).

A shallow embedding of the pretty printer and the properties of its two views
(the verbose per-control walk and the summary table).

Conventions of the embedding.

* Go strings are Lean `String`s; `len` and slicing count UTF-8 bytes, string
  comparison is the lexicographic comparison of the UTF-8 bytes.
* A run-time panic (index or slice bound out of range, method call on a nil
  interface) is an explicit failure: `Option` for pure functions, `Except` for
  the printing functions, whose error carries what had been written before the
  panic.
* The writer is not interpreted.  Every call of a `cautils.*Display` function,
  of `fmt.Println` and of a `tablewriter` method is recorded, in order, with the
  format string and the arguments it received (`Event`).
* Functions, constants and types of the repository that the file uses but does
  not define are parameters (`Env`).
-/

set_option linter.unusedVariables false

namespace PrettyPrinterV2

/-! ## Go strings -/

/-- Go `len(s)` of a string: its number of bytes. -/
def len (s : String) : Int := s.utf8ByteSize

/-- Go `s[:hi]` of a string.  `none` is the run-time panic "slice bounds out of
range".  (`hi` is assumed to fall on a character boundary, which is the case in
every use below: a Lean string cannot hold half a character.) -/
def sliceTo (s : String) (hi : Int) : Option String :=
  if 0 ≤ hi ∧ hi ≤ len s then some (s.extract 0 ⟨hi.toNat⟩) else none

/-- UTF-8 encoding of one character, as a list of byte values. -/
def utf8Bytes (c : Char) : List Nat :=
  let n := c.toNat
  if n < 0x80 then [n]
  else if n < 0x800 then [0xC0 + n / 0x40, 0x80 + n % 0x40]
  else if n < 0x10000 then [0xE0 + n / 0x1000, 0x80 + n / 0x40 % 0x40, 0x80 + n % 0x40]
  else [0xF0 + n / 0x40000, 0x80 + n / 0x1000 % 0x40, 0x80 + n / 0x40 % 0x40, 0x80 + n % 0x40]

/-- Bytes of a Go string. -/
def bytes (s : String) : List Nat := s.data.flatMap utf8Bytes

/-- Go `a <= b` on strings: lexicographic order of the bytes. -/
def strLE (a b : String) : Prop := bytes a ≤ bytes b

instance strLE.decidable : DecidableRel strLE := fun a b =>
  inferInstanceAs (Decidable (bytes a ≤ bytes b))

instance strLE.isTotal : IsTotal String strLE := ⟨fun a b => le_total (bytes a) (bytes b)⟩

instance strLE.isTrans : IsTrans String strLE :=
  ⟨fun _ _ _ h₁ h₂ => le_trans h₁ h₂⟩

/-- Go `sort.Strings`: the slice in increasing order.  Equal strings cannot be
told apart, so every sorting algorithm returns the same slice; insertion sort
is used here. -/
def sortStrings (xs : List String) : List String := List.insertionSort strLE xs

/-! ## Data model (interfaces of the imported packages, by the results of their methods) -/

/-- Type tag `workloadinterface.ObjectType`; only `TypeWorkloadObject` is
distinguished by the printer. -/
inductive ObjectType where
  | TypeWorkloadObject
  | other (tag : String)
  deriving DecidableEq, Repr

/-- A related object, an `IMetadata` read through `GetNamespace`, `GetKind` and `GetName`. -/
structure RelatedObject where
  GetNamespace : String
  GetKind : String
  GetName : String
  deriving DecidableEq, Repr

/-- The resource of a workload summary (`workloadinterface.IMetadata`).  Field
`GetRelatedObjects` is the result of
`objectsenvelopes.NewRegoResponseVectorObject(resource.GetObject()).GetRelatedObjects()`. -/
structure Resource where
  GetKind : String
  GetName : String
  GetNamespace : String
  GetObjectType : ObjectType
  GetRelatedObjects : List RelatedObject
  deriving DecidableEq, Repr

/-- Status values `apis.ScanningStatus`; `other` stands for every value that the
`switch` of `printTitle` sends to its `default` branch. -/
inductive ScanningStatus where
  | StatusSkipped
  | StatusFailed
  | StatusExcluded
  | StatusIrrelevant
  | StatusError
  | other
  deriving DecidableEq, Repr

/-- Modelled from the spec: the type `WorkloadSummary` is declared outside this
file; the printer reads its field `resource` only.  The spec's WorkloadResult
is a reference to the evaluated resource and the outcome for one control. -/
structure WorkloadSummary where
  resource : Resource
  status : ScanningStatus
  deriving DecidableEq, Repr

/-! ## Related-object annotator -/

/-- Loop `for i, related := range relatedObjects` of `generateRelatedObjectsStr`,
entered at index `i` with the string built so far. -/
def generateRelatedObjectsStr.loop : Nat → List RelatedObject → String → String
  | _, [], relatedStr => relatedStr
  | i, related :: rest, relatedStr =>
    let ns := related.GetNamespace
    let relatedStr :=
      if i = 0 ∧ ns ≠ "" then relatedStr ++ ("Namespace - " ++ ns ++ ", ") else relatedStr
    generateRelatedObjectsStr.loop (i + 1) rest
      (relatedStr ++ (related.GetKind ++ " - " ++ related.GetName ++ ", "))

/-- Function `generateRelatedObjectsStr`. -/
def generateRelatedObjectsStr (workload : WorkloadSummary) : Option String :=
  let relatedStr :=
    if workload.resource.GetObjectType = ObjectType.TypeWorkloadObject then
      generateRelatedObjectsStr.loop 0 workload.resource.GetRelatedObjects ""
    else ""
  if relatedStr ≠ "" then
    match sliceTo relatedStr (len relatedStr - 2) with
    | none => none
    | some s => some (" [" ++ s ++ "]")
  else some relatedStr

/-! ## Data model, continued -/

/-- Status object `apis.IStatus` returned by `GetStatus()`, by the results of
the methods the printer calls. -/
structure StatusInfo where
  Status : ScanningStatus
  IsSkipped : Bool
  IsFailed : Bool
  Info : String
  deriving DecidableEq, Repr

/-- Resource counters `ICounters` returned by `NumberOfResources()`. -/
structure Counters where
  Passed : Int
  Excluded : Int
  Failed : Int
  All : Int
  deriving DecidableEq, Repr

/-- A non-nil `reportsummary.IControlSummary`.  A nil interface value is
`none : Option ControlSummary`. -/
structure ControlSummary where
  GetName : String
  GetID : String
  GetDescription : String
  GetRemediation : String
  GetStatus : StatusInfo
  NumberOfResources : Counters
  deriving DecidableEq, Repr

/-- The control map `reportsummary.ControlSummaries`, read through
`GetControl(reportsummary.EControlCriteriaName, name)`; `none` is the nil
interface value of a name that does not resolve. -/
structure ControlSummaries where
  GetControl : String → Option ControlSummary

/-- A `reportsummary.IFrameworkSummary`; `σ` is the type of scores (`float32`). -/
structure FrameworkSummary (σ : Type) where
  GetName : String
  GetScore : σ

/-- The report `reportsummary.SummaryDetails`. -/
structure SummaryDetails (σ : Type) where
  Score : σ
  NumberOfResources : Counters
  Controls : ControlSummaries
  ListFrameworks : List (FrameworkSummary σ)

/-- Modelled from the spec: the type `infoStars` is declared outside this file;
the printer reads its fields `stars` and `info`. -/
structure InfoStars where
  stars : String
  info : String
  deriving DecidableEq, Repr

/-- The lookup `map[string]workloadinterface.IMetadata`; the printer only hands it on. -/
abbrev AllResources := List (String × Resource)

/-- A `map[string][]WorkloadSummary`, as the list of its entries in the order
in which a `range` statement enumerates them.  That order is chosen by the Go
run time: every permutation of the entries is a possible enumeration. -/
abbrev Groups := List (String × List WorkloadSummary)

/-- The printer object: its two render-time flags.  The writer is the trace
threaded through the printing functions. -/
structure PrettyPrinter where
  formatVersion : String
  verboseMode : Bool
  deriving DecidableEq, Repr

/-- What the file uses of its package and of its imports without defining it. -/
structure Env (σ : Type) where
  listResultSummary : Option ControlSummary → AllResources → List WorkloadSummary
  groupByNamespaceOrKind : List WorkloadSummary → (WorkloadSummary → Bool) → Groups
  workloadSummaryFailed : WorkloadSummary → Bool
  workloadSummaryExclude : WorkloadSummary → Bool
  workloadSummaryPassed : WorkloadSummary → Bool
  generateRow : Option ControlSummary → List InfoStars → Bool → List String
  mapInfoToPrintInfo : ControlSummaries → List InfoStars
  getControlTableHeaders : List String
  getColumnsAlignments : List Int
  columnSeverity : Nat
  columnName : Nat
  columnCounterFailed : Nat
  columnCounterExclude : Nat
  columnCounterAll : Nat
  columnRiskScore : Nat
  columnInfo : Nat
  _rowLen : Nat
  /-- Function `strings.ToLower`. -/
  ToLower : String → String
  /-- Verb `%.2f` of package `fmt` on a score. -/
  sprintfF2 : σ → String

/-! ## Trace of the writer -/

/-- Glyphs of package `emoji` used by the printer. -/
inductive Emoji where
  | Detective
  | ConfusedFace
  | SadButRelievedFace
  | NeutralFace
  | ThumbsUp
  deriving DecidableEq, Repr

/-- An argument handed to a display function after the format string. -/
inductive Arg where
  | str (s : String)
  | int (n : Int)
  | emoji (e : Emoji)
  deriving DecidableEq, Repr

/-- Display functions of package `cautils`. -/
inductive Display where
  | SimpleDisplay
  | SuccessDisplay
  | WarningDisplay
  | FailureDisplay
  | InfoDisplay
  | DescriptionDisplay
  | InfoTextDisplay
  deriving DecidableEq, Repr

/-- Method calls on the `tablewriter` table of `printSummaryTable`. -/
inductive TableCall where
  | NewWriter
  | SetAutoWrapText (b : Bool)
  | SetHeader (keys : List String)
  | SetHeaderLine (b : Bool)
  | SetColumnAlignment (keys : List Int)
  | Append (row : List String)
  | SetFooter (row : List String)
  | Render
  deriving DecidableEq, Repr

/-- One call that reaches the output. -/
inductive Event where
  | display (fn : Display) (format : String) (args : List Arg)
  | println
  | table (c : TableCall)
  deriving DecidableEq, Repr

/-- Everything sent to the output so far, oldest first. -/
abbrev Trace := List Event

/-- Result of a printing function: the trace after it returned, or the trace
at the moment it panicked. -/
abbrev Run := Except Trace Trace

/-- The trace that a run leaves behind, whether it returned or panicked. -/
def written : Run → Trace
  | .ok w => w
  | .error w => w

/-- A call `cautils.<fn>(prettyPrinter.writer, format, args...)`. -/
def cautils (w : Trace) (fn : Display) (format : String) (args : List Arg) : Trace :=
  w ++ [Event.display fn format args]

/-! ## The printer -/

/-- Function `getControlLink`. -/
def getControlLink {σ : Type} (env : Env σ) (controlID : String) : String :=
  "https://hub.armo.cloud/docs/" ++ env.ToLower controlID

/-- Method `printSummary`. -/
def printSummary (controlName : String) (controlSummary : Option ControlSummary)
    (w : Trace) : Run :=
  match controlSummary with
  | none => .error w
  | some c =>
    if c.GetStatus.IsSkipped then .ok w
    else
      let w := cautils w .SimpleDisplay "Summary - " []
      let w := cautils w .SuccessDisplay "Passed:%v   " [.int c.NumberOfResources.Passed]
      let w := cautils w .WarningDisplay "Excluded:%v   " [.int c.NumberOfResources.Excluded]
      let w := cautils w .FailureDisplay "Failed:%v   " [.int c.NumberOfResources.Failed]
      let w := cautils w .InfoDisplay "Total:%v\n" [.int c.NumberOfResources.All]
      let w :=
        if c.GetStatus.IsFailed then
          cautils w .DescriptionDisplay "Remediation: %v\n" [.str c.GetRemediation]
        else w
      .ok (cautils w .DescriptionDisplay "\n" [])

/-- Method `printTitle`. -/
def printTitle {σ : Type} (env : Env σ) (controlSummary : Option ControlSummary)
    (w : Trace) : Run :=
  match controlSummary with
  | none => .error w
  | some c =>
    let w := cautils w .InfoDisplay "[control: %s - %s] "
      [.str c.GetName, .str (getControlLink env c.GetID)]
    let w :=
      match c.GetStatus.Status with
      | .StatusSkipped => cautils w .InfoDisplay "skipped %v\n" [.emoji .ConfusedFace]
      | .StatusFailed => cautils w .FailureDisplay "failed %v\n" [.emoji .SadButRelievedFace]
      | .StatusExcluded => cautils w .WarningDisplay "excluded %v\n" [.emoji .NeutralFace]
      | .StatusIrrelevant => cautils w .SuccessDisplay "irrelevant %v\n" [.emoji .ConfusedFace]
      | .StatusError => cautils w .WarningDisplay "error %v\n" [.emoji .ConfusedFace]
      | .other => cautils w .SuccessDisplay "passed %v\n" [.emoji .ThumbsUp]
    let w := cautils w .DescriptionDisplay "Description: %s\n" [.str c.GetDescription]
    if c.GetStatus.Info ≠ "" then
      .ok (cautils w .WarningDisplay "Reason: %v\n" [.str c.GetStatus.Info])
    else .ok w

/-- First loop of `printGroupedResource`: the composed line of every member,
appended to `resources`; `none` when `generateRelatedObjectsStr` panics. -/
def printGroupedResource.collect (indent : String) :
    List WorkloadSummary → List String → Option (List String)
  | [], resources => some resources
  | r :: rest, resources =>
    match generateRelatedObjectsStr r with
    | none => none
    | some relatedObjectsStr =>
      printGroupedResource.collect indent rest
        (resources ++
          [indent ++ r.resource.GetKind ++ " - " ++ r.resource.GetName ++ " " ++ relatedObjectsStr])

/-- Second loop of `printGroupedResource`: one display call per line. -/
def printGroupedResource.emit : List String → Trace → Trace
  | [], w => w
  | r :: rest, w => printGroupedResource.emit rest (cautils w .SimpleDisplay (r ++ "\n") [])

/-- Method `printGroupedResource`. -/
def printGroupedResource (indent : String) (title : String) (rsc : List WorkloadSummary)
    (w : Trace) : Run :=
  let w := if title ≠ "" then cautils w .SimpleDisplay "%s%s\n" [.str indent, .str title] else w
  let indent := if title ≠ "" then indent ++ indent else indent
  match printGroupedResource.collect indent rsc [] with
  | none => .error w
  | some resources => .ok (printGroupedResource.emit (sortStrings resources) w)

/-- Method `printGroupedResources`: one `printGroupedResource` per entry, in
the order the map is enumerated. -/
def printGroupedResources : Groups → Trace → Run
  | [], w => .ok w
  | (title, rsc) :: rest, w =>
    (printGroupedResource "  " title rsc w).bind (printGroupedResources rest)

/-- Method `printResources`. -/
def printResources {σ : Type} (env : Env σ) (pp : PrettyPrinter)
    (controlSummary : Option ControlSummary) (allResources : AllResources) (w : Trace) : Run :=
  let workloadsSummary := env.listResultSummary controlSummary allResources
  let failedWorkloads := env.groupByNamespaceOrKind workloadsSummary env.workloadSummaryFailed
  let excludedWorkloads := env.groupByNamespaceOrKind workloadsSummary env.workloadSummaryExclude
  let passedWorkloads : Groups :=
    if pp.verboseMode then
      env.groupByNamespaceOrKind workloadsSummary env.workloadSummaryPassed
    else []
  (if failedWorkloads.length > 0 then
      printGroupedResources failedWorkloads (cautils w .FailureDisplay "Failed:\n" [])
    else .ok w).bind fun w =>
  (if excludedWorkloads.length > 0 then
      printGroupedResources excludedWorkloads (cautils w .WarningDisplay "Excluded:\n" [])
    else .ok w).bind fun w =>
  if passedWorkloads.length > 0 then
    printGroupedResources passedWorkloads (cautils w .SuccessDisplay "Passed:\n" [])
  else .ok w

/-- Body of the loops of `printResults` for one control name `c`. -/
def printResults.body {σ : Type} (env : Env σ) (pp : PrettyPrinter)
    (controls : ControlSummaries) (allResources : AllResources) (c : String) (w : Trace) : Run :=
  let controlSummary := controls.GetControl c
  (printTitle env controlSummary w).bind fun w =>
  (printResources env pp controlSummary allResources w).bind fun w =>
  printSummary c controlSummary w

/-- Inner loop `for _, c := range sortedControlNames[i]` of `printResults`. -/
def printResults.inner {σ : Type} (env : Env σ) (pp : PrettyPrinter)
    (controls : ControlSummaries) (allResources : AllResources) : List String → Trace → Run
  | [], w => .ok w
  | c :: rest, w =>
    (printResults.body env pp controls allResources c w).bind
      (printResults.inner env pp controls allResources rest)

/-- Outer loop `for i := len(sortedControlNames) - 1; i >= 0; i--` of
`printResults`, entered with `i + 1 = n`. -/
def printResults.outer {σ : Type} (env : Env σ) (pp : PrettyPrinter)
    (controls : ControlSummaries) (allResources : AllResources)
    (sortedControlNames : List (List String)) : Nat → Trace → Run
  | 0, w => .ok w
  | i + 1, w =>
    match sortedControlNames[i]? with
    | none => .error w
    | some bucket =>
      (printResults.inner env pp controls allResources bucket w).bind
        (printResults.outer env pp controls allResources sortedControlNames i)

/-- Method `printResults`. -/
def printResults {σ : Type} (env : Env σ) (pp : PrettyPrinter) (controls : ControlSummaries)
    (allResources : AllResources) (sortedControlNames : List (List String)) (w : Trace) : Run :=
  printResults.outer env pp controls allResources sortedControlNames sortedControlNames.length w

/-- Go `row[i] = v` on a slice; `none` is the panic "index out of range". -/
def setIndex (row : List String) (i : Nat) (v : String) : Option (List String) :=
  if i < row.length then some (row.set i v) else none

/-- Function `generateFooter`. -/
def generateFooter {σ : Type} (env : Env σ) (summaryDetails : SummaryDetails σ) :
    Option (List String) :=
  let row := List.replicate env._rowLen ""
  (setIndex row env.columnName "Resource Summary").bind fun row =>
  (setIndex row env.columnCounterFailed (toString summaryDetails.NumberOfResources.Failed)).bind
    fun row =>
  (setIndex row env.columnCounterExclude
    (toString summaryDetails.NumberOfResources.Excluded)).bind fun row =>
  (setIndex row env.columnCounterAll (toString summaryDetails.NumberOfResources.All)).bind
    fun row =>
  (setIndex row env.columnSeverity " ").bind fun row =>
  (setIndex row env.columnRiskScore (env.sprintfF2 summaryDetails.Score ++ "%")).bind fun row =>
  setIndex row env.columnInfo " "

/-- Loop `for ; i < len(frameworks)-1; i++` of `frameworksScoresToString`,
entered at index `i` with `n` iterations to go; returns the final `i` and `p`. -/
def frameworksScoresToString.loop {σ : Type} (env : Env σ) (frameworks : List (FrameworkSummary σ)) :
    Nat → Nat → String → Option (Nat × String)
  | 0, i, p => some (i, p)
  | n + 1, i, p =>
    match frameworks[i]? with
    | none => none
    | some f =>
      frameworksScoresToString.loop env frameworks n (i + 1)
        (p ++ (f.GetName ++ " (risk: " ++ env.sprintfF2 f.GetScore ++ "), "))

/-- Function `frameworksScoresToString`. -/
def frameworksScoresToString {σ : Type} (env : Env σ) (frameworks : List (FrameworkSummary σ)) :
    Option String :=
  if frameworks.length = 1 then
    match frameworks[0]? with
    | none => none
    | some f => if f.GetName ≠ "" then some ("FRAMEWORK " ++ f.GetName ++ "\n") else some ""
  else if frameworks.length > 1 then
    match frameworksScoresToString.loop env frameworks (frameworks.length - 1) 0 "FRAMEWORKS: " with
    | none => none
    | some (i, p) =>
      match frameworks[i]? with
      | none => none
      | some f => some (p ++ (f.GetName ++ " (risk: " ++ env.sprintfF2 f.GetScore ++ ")\n"))
  else some ""

/-- Loop of `printInfo`. -/
def printInfo.loop : List InfoStars → Trace → Trace
  | [], w => w
  | x :: rest, w =>
    printInfo.loop rest (cautils w .InfoDisplay (x.stars ++ " " ++ x.info ++ "\n") [])

/-- Method `printInfo`. -/
def printInfo (infoToPrintInfo : List InfoStars) (w : Trace) : Trace :=
  printInfo.loop infoToPrintInfo (w ++ [Event.println])

/-- Inner loop `for _, c := range sortedControlNames[i]` of `printSummaryTable`. -/
def printSummaryTable.inner {σ : Type} (env : Env σ) (pp : PrettyPrinter)
    (summaryDetails : SummaryDetails σ) (infoToPrintInfo : List InfoStars) :
    List String → Trace → Trace
  | [], w => w
  | c :: rest, w =>
    let row := env.generateRow (summaryDetails.Controls.GetControl c) infoToPrintInfo pp.verboseMode
    printSummaryTable.inner env pp summaryDetails infoToPrintInfo rest
      (if row.length > 0 then w ++ [Event.table (.Append row)] else w)

/-- Outer loop `for i := len(sortedControlNames) - 1; i >= 0; i--` of
`printSummaryTable`, entered with `i + 1 = n`. -/
def printSummaryTable.outer {σ : Type} (env : Env σ) (pp : PrettyPrinter)
    (summaryDetails : SummaryDetails σ) (infoToPrintInfo : List InfoStars)
    (sortedControlNames : List (List String)) : Nat → Trace → Run
  | 0, w => .ok w
  | i + 1, w =>
    match sortedControlNames[i]? with
    | none => .error w
    | some bucket =>
      printSummaryTable.outer env pp summaryDetails infoToPrintInfo sortedControlNames i
        (printSummaryTable.inner env pp summaryDetails infoToPrintInfo bucket w)

/-- Method `printSummaryTable`. -/
def printSummaryTable {σ : Type} (env : Env σ) (pp : PrettyPrinter)
    (summaryDetails : SummaryDetails σ) (sortedControlNames : List (List String))
    (w : Trace) : Run :=
  let w := w ++ [Event.table .NewWriter]
  let w := w ++ [Event.table (.SetAutoWrapText false)]
  let w := w ++ [Event.table (.SetHeader env.getControlTableHeaders)]
  let w := w ++ [Event.table (.SetHeaderLine true)]
  let w := w ++ [Event.table (.SetColumnAlignment env.getColumnsAlignments)]
  let infoToPrintInfo := env.mapInfoToPrintInfo summaryDetails.Controls
  (printSummaryTable.outer env pp summaryDetails infoToPrintInfo sortedControlNames
    sortedControlNames.length w).bind fun w =>
  match generateFooter env summaryDetails with
  | none => .error w
  | some footer =>
    let w := w ++ [Event.table (.SetFooter footer)]
    let w := w ++ [Event.table .Render]
    match frameworksScoresToString env summaryDetails.ListFrameworks with
    | none => .error w
    | some s => .ok (printInfo infoToPrintInfo (cautils w .InfoTextDisplay s []))

/-! ## Notions used to state the properties -/

/-- Entry of one related object in the suffix. -/
def relatedEntry (r : RelatedObject) : String := r.GetKind ++ " - " ++ r.GetName

/-- Namespace part of the suffix: only the first related object is looked at. -/
def namespacePart : List RelatedObject → String
  | [] => ""
  | r :: _ => if r.GetNamespace ≠ "" then "Namespace - " ++ r.GetNamespace ++ ", " else ""

/-- Entry of one framework in the rollup line. -/
def frameworkEntry {σ : Type} (env : Env σ) (f : FrameworkSummary σ) : String :=
  f.GetName ++ " (risk: " ++ env.sprintfF2 f.GetScore ++ ")"

/-- The seven column constants index seven different cells of a row of seven. -/
def Env.columnsWellFormed {σ : Type} (env : Env σ) : Prop :=
  env._rowLen = 7 ∧
  [env.columnName, env.columnCounterFailed, env.columnCounterExclude, env.columnCounterAll,
    env.columnSeverity, env.columnRiskScore, env.columnInfo].Nodup ∧
  ∀ c ∈ [env.columnName, env.columnCounterFailed, env.columnCounterExclude, env.columnCounterAll,
    env.columnSeverity, env.columnRiskScore, env.columnInfo], c < env._rowLen

instance Env.columnsWellFormed.decidable {σ : Type} (env : Env σ) :
    Decidable env.columnsWellFormed := by
  unfold Env.columnsWellFormed; infer_instance

/-- The assignments of `generateFooter`, in program order. -/
def footerCells {σ : Type} (env : Env σ) (sd : SummaryDetails σ) : List (Nat × String) :=
  [(env.columnName, "Resource Summary"),
   (env.columnCounterFailed, toString sd.NumberOfResources.Failed),
   (env.columnCounterExclude, toString sd.NumberOfResources.Excluded),
   (env.columnCounterAll, toString sd.NumberOfResources.All),
   (env.columnSeverity, " "),
   (env.columnRiskScore, env.sprintfF2 sd.Score ++ "%"),
   (env.columnInfo, " ")]

/-- Closed form of the related-object suffix. -/
def relatedSuffix (workload : WorkloadSummary) : String :=
  match workload.resource.GetObjectType, workload.resource.GetRelatedObjects with
  | .TypeWorkloadObject, r :: rest =>
    " [" ++ (namespacePart (r :: rest) ++ ", ".intercalate ((r :: rest).map relatedEntry)) ++ "]"
  | _, _ => ""

/-- The composed display string of a group member. -/
def memberLine (indent : String) (r : WorkloadSummary) (suffix : String) : String :=
  indent ++ r.resource.GetKind ++ " - " ++ r.resource.GetName ++ " " ++ suffix

/-- The display call that emits one member line. -/
def lineEvent (line : String) : Event := Event.display .SimpleDisplay (line ++ "\n") []

/-- What `printGroupedResource` sends to the output for one group. -/
def groupBlock (indent title : String) (rsc : List WorkloadSummary) : Trace :=
  written (printGroupedResource indent title rsc [])

/-- What `printTitle` sends to the output for a control. -/
def titleBlock {σ : Type} (env : Env σ) (c : ControlSummary) : Trace :=
  written (printTitle env (some c) [])

/-- One outcome section of `printResources`: nothing for an empty map, else the
header call and the blocks of the groups. -/
def sectionBlock (fn : Display) (header : String) (workloads : Groups) : Trace :=
  if workloads.length > 0 then
    Event.display fn header [] :: (workloads.map fun g => groupBlock "  " g.1 g.2).flatten
  else []

/-- What `printResources` sends to the output for a control. -/
def resourcesBlock {σ : Type} (env : Env σ) (pp : PrettyPrinter)
    (controlSummary : Option ControlSummary) (allResources : AllResources) : Trace :=
  written (printResources env pp controlSummary allResources [])

/-- What `printSummary` sends to the output for a control. -/
def summaryBlock (c : ControlSummary) : Trace :=
  written (printSummary c.GetName (some c) [])

/-- The order of the walk: buckets from the last to the first, each bucket in its own order. -/
def walkOrder (sortedControlNames : List (List String)) : List String :=
  sortedControlNames.reverse.flatten

/-- The row of an `Append` call, nothing for every other event. -/
def appendedRow : Event → Option (List String)
  | .table (.Append row) => some row
  | _ => none

/-- The row that `printSummaryTable` offers to the table for a control name, if any. -/
def offeredRow {σ : Type} (env : Env σ) (pp : PrettyPrinter) (summaryDetails : SummaryDetails σ)
    (c : String) : Option (List String) :=
  let row := env.generateRow (summaryDetails.Controls.GetControl c)
    (env.mapInfoToPrintInfo summaryDetails.Controls) pp.verboseMode
  if row.length > 0 then some row else none

/-- The status call of a title block, by status value. -/
def statusEvent : ScanningStatus → Event
  | .StatusSkipped => Event.display .InfoDisplay "skipped %v\n" [.emoji .ConfusedFace]
  | .StatusFailed => Event.display .FailureDisplay "failed %v\n" [.emoji .SadButRelievedFace]
  | .StatusExcluded => Event.display .WarningDisplay "excluded %v\n" [.emoji .NeutralFace]
  | .StatusIrrelevant => Event.display .SuccessDisplay "irrelevant %v\n" [.emoji .ConfusedFace]
  | .StatusError => Event.display .WarningDisplay "error %v\n" [.emoji .ConfusedFace]
  | .other => Event.display .SuccessDisplay "passed %v\n" [.emoji .ThumbsUp]

/-- The title block of a control: name and link, status, description, and the
reason when there is one. -/
def titleEvents {σ : Type} (env : Env σ) (c : ControlSummary) : Trace :=
  [Event.display .InfoDisplay "[control: %s - %s] "
      [.str c.GetName, .str ("https://hub.armo.cloud/docs/" ++ env.ToLower c.GetID)],
    statusEvent c.GetStatus.Status,
    Event.display .DescriptionDisplay "Description: %s\n" [.str c.GetDescription]] ++
  (if c.GetStatus.Info = "" then []
    else [Event.display .WarningDisplay "Reason: %v\n" [.str c.GetStatus.Info]])

/-- The summary block of a control: nothing when skipped, else the counters,
the remediation when failed, and an empty line. -/
def summaryEvents (c : ControlSummary) : Trace :=
  if c.GetStatus.IsSkipped then []
  else
    [Event.display .SimpleDisplay "Summary - " [],
      Event.display .SuccessDisplay "Passed:%v   " [.int c.NumberOfResources.Passed],
      Event.display .WarningDisplay "Excluded:%v   " [.int c.NumberOfResources.Excluded],
      Event.display .FailureDisplay "Failed:%v   " [.int c.NumberOfResources.Failed],
      Event.display .InfoDisplay "Total:%v\n" [.int c.NumberOfResources.All]] ++
    (if c.GetStatus.IsFailed then
      [Event.display .DescriptionDisplay "Remediation: %v\n" [.str c.GetRemediation]]
      else []) ++
    [Event.display .DescriptionDisplay "\n" []]

/-- The block of one group: the header when the title is not empty, then the
composed member lines in increasing order. -/
def groupEvents (title : String) (rsc : List WorkloadSummary) : Trace :=
  (if title = "" then []
    else [Event.display .SimpleDisplay "%s%s\n" [.str "  ", .str title]]) ++
  (sortStrings (rsc.map fun r =>
    memberLine (if title = "" then "  " else "    ") r (relatedSuffix r))).map lineEvent

/-- One outcome section: nothing for an empty map, else the header call and
the blocks of the groups in the order the map is enumerated. -/
def sectionEvents (fn : Display) (header : String) (workloads : Groups) : Trace :=
  match workloads with
  | [] => []
  | g :: rest =>
    Event.display fn header [] :: (g :: rest).flatMap fun x => groupEvents x.1 x.2

/-- The resource listing of a control: failed, excluded and, in verbose mode,
passed section. -/
def resourcesEvents {σ : Type} (env : Env σ) (pp : PrettyPrinter) (allResources : AllResources)
    (c : ControlSummary) : Trace :=
  sectionEvents .FailureDisplay "Failed:\n"
    (env.groupByNamespaceOrKind (env.listResultSummary (some c) allResources)
      env.workloadSummaryFailed) ++
  sectionEvents .WarningDisplay "Excluded:\n"
    (env.groupByNamespaceOrKind (env.listResultSummary (some c) allResources)
      env.workloadSummaryExclude) ++
  sectionEvents .SuccessDisplay "Passed:\n"
    (if pp.verboseMode then
      env.groupByNamespaceOrKind (env.listResultSummary (some c) allResources)
        env.workloadSummaryPassed
    else [])

/-- The block of a control in the verbose walk: title, resource listing, summary. -/
def controlEvents {σ : Type} (env : Env σ) (pp : PrettyPrinter) (allResources : AllResources)
    (c : ControlSummary) : Trace :=
  titleEvents env c ++ resourcesEvents env pp allResources c ++ summaryEvents c

/-- The controls of the walk: the controls that the names of the bucket list
resolve to, buckets from the last to the first, each bucket in its own order. -/
def walkControls (controls : ControlSummaries) (sortedControlNames : List (List String)) :
    List ControlSummary :=
  (sortedControlNames.reverse.flatten).filterMap controls.GetControl

/-- The control name shown by the first call of a title block, nothing for
every other event. -/
def titledControl : Event → Option String
  | .display .InfoDisplay format [.str name, .str _] =>
    if format = "[control: %s - %s] " then some name else none
  | _ => none

/-! ## Sample inputs -/

/-- A finite binary floating-point number `± mant / 2 ^ exp`. -/
structure Binary where
  neg : Bool
  mant : Nat
  exp : Nat
  deriving DecidableEq, Repr

/-- Verb `%.2f` on a finite binary floating-point number: the nearest multiple
of one hundredth, ties to even, with two digits after the point. -/
def Binary.sprintfF2 (x : Binary) : String :=
  let q := x.mant * 100 / 2 ^ x.exp
  let r := x.mant * 100 % 2 ^ x.exp
  let n :=
    if 2 * r < 2 ^ x.exp then q
    else if 2 ^ x.exp < 2 * r then q + 1
    else if q % 2 = 0 then q else q + 1
  (if x.neg then "-" else "") ++ toString (n / 100) ++ "." ++
    toString (n / 10 % 10) ++ toString (n % 10)

/-- Sample grouping step: the workload joins the group of its key, or opens a new group. -/
def sampleInsert : Groups → String → WorkloadSummary → Groups
  | [], k, x => [(k, [x])]
  | (k', xs) :: rest, k, x =>
    if k' = k then (k', xs ++ [x]) :: rest else (k', xs) :: sampleInsert rest k x

/-- Sample environment.  Every resource of the lookup is listed as a failed
workload of every control, groups are keyed by namespace, a control with no
resource has no table row, and the columns are laid out as the spec lists them
(name, failed, excluded, total, severity, risk score, info). -/
def sampleEnv : Env Binary where
  listResultSummary := fun _ allResources =>
    allResources.map fun p => { resource := p.2, status := ScanningStatus.StatusFailed }
  groupByNamespaceOrKind := fun resources status =>
    (resources.filter status).foldl (fun m x => sampleInsert m x.resource.GetNamespace x) []
  workloadSummaryFailed := fun x => x.status = ScanningStatus.StatusFailed
  workloadSummaryExclude := fun x => x.status = ScanningStatus.StatusExcluded
  workloadSummaryPassed := fun x => x.status = ScanningStatus.other
  generateRow := fun c _ _ =>
    match c with
    | none => []
    | some c => if c.NumberOfResources.All = 0 then [] else [c.GetName]
  mapInfoToPrintInfo := fun _ => []
  getControlTableHeaders := []
  getColumnsAlignments := []
  columnName := 0
  columnCounterFailed := 1
  columnCounterExclude := 2
  columnCounterAll := 3
  columnSeverity := 4
  columnRiskScore := 5
  columnInfo := 6
  _rowLen := 7
  ToLower := fun s => String.mk (s.data.map Char.toLower)
  sprintfF2 := Binary.sprintfF2

/-- Sample printer in verbose mode. -/
def samplePrinter : PrettyPrinter := { formatVersion := "v1", verboseMode := true }

/-- Sample control: passed, five resources. -/
def controlA : ControlSummary :=
  { GetName := "A", GetID := "C-0001", GetDescription := "first", GetRemediation := "fix",
    GetStatus := { Status := .other, IsSkipped := false, IsFailed := false, Info := "" },
    NumberOfResources := { Passed := 5, Excluded := 0, Failed := 0, All := 5 } }

/-- Sample control: skipped, no resource counted. -/
def controlS : ControlSummary :=
  { GetName := "S", GetID := "C-0002", GetDescription := "second", GetRemediation := "",
    GetStatus := { Status := .StatusSkipped, IsSkipped := true, IsFailed := false, Info := "" },
    NumberOfResources := { Passed := 0, Excluded := 0, Failed := 0, All := 0 } }

/-- Sample control map: the names `A` and `S` resolve, no other name does. -/
def sampleControls : ControlSummaries where
  GetControl := fun name =>
    if name = "A" then some controlA else if name = "S" then some controlS else none

/-- Sample workload resource with two related objects. -/
def podX : Resource :=
  { GetKind := "Pod", GetName := "x", GetNamespace := "a",
    GetObjectType := ObjectType.TypeWorkloadObject,
    GetRelatedObjects := [⟨"a", "Pod", "x"⟩, ⟨"", "ReplicaSet", "y"⟩] }

/-- Sample resource that is not a workload. -/
def nodeY : Resource :=
  { GetKind := "Node", GetName := "y", GetNamespace := "",
    GetObjectType := ObjectType.other "base", GetRelatedObjects := [] }

/-- Sample report. -/
def sampleSummary : SummaryDetails Binary :=
  { Score := ⟨false, 3, 1⟩,
    NumberOfResources := { Passed := 3, Excluded := 0, Failed := 2, All := 5 },
    Controls := sampleControls,
    ListFrameworks := [⟨"A", ⟨false, 3, 1⟩⟩, ⟨"B", ⟨false, 9, 2⟩⟩] }

/-- Sample workload on `podX`. -/
def workloadX : WorkloadSummary := { resource := podX, status := ScanningStatus.StatusFailed }

/-- Sample workload on `nodeY`. -/
def workloadY : WorkloadSummary := { resource := nodeY, status := ScanningStatus.StatusFailed }

/-! ## Lemmas and theorems -/

theorem len_data (s : String) : len s = (String.utf8Len s.data : Int) := by
  cases s; rfl

theorem sliceTo_append_sep (x : String) :
    sliceTo (x ++ ", ") (len (x ++ ", ") - 2) = some x := by
  have hlen : len (x ++ ", ") - 2 = (String.utf8Len x.data : Int) := by
    rw [len_data, String.data_append, String.utf8Len_append]
    have : String.utf8Len (", " : String).data = 2 := by decide
    rw [this]; push_cast; ring
  rw [hlen]
  unfold sliceTo
  have hle : (String.utf8Len x.data : Int) ≤ len (x ++ ", ") := by
    rw [len_data, String.data_append, String.utf8Len_append]; push_cast; omega
  rw [if_pos ⟨Int.ofNat_nonneg _, hle⟩]
  have h := String.extract_of_valid [] x.data (", " : String).data
  simp only [List.nil_append, String.utf8Len_nil, Nat.zero_add] at h
  have hx : (x ++ ", " : String) = ⟨x.data ++ (", " : String).data⟩ := String.ext (by simp)
  rw [hx, Int.toNat_ofNat]
  exact congrArg some h

theorem append_sep_ne_empty (x : String) : x ++ ", " ≠ "" := by
  intro h
  have := congrArg String.length h
  simp at this
  exact absurd this.2 (by decide)

theorem loop_succ (i : Nat) (rs : List RelatedObject) (acc : String) :
    generateRelatedObjectsStr.loop (i + 1) rs acc
      = acc ++ String.join (rs.map fun r => relatedEntry r ++ ", ") := by
  induction rs generalizing i acc with
  | nil => simp [generateRelatedObjectsStr.loop, String.join]
  | cons r rest ih =>
    simp only [generateRelatedObjectsStr.loop, Nat.add_one_ne_zero, false_and, if_false, ih,
      List.map_cons, relatedEntry]
    rw [String.join_eq, String.join_eq]
    apply String.ext
    simp [List.append_assoc]

theorem loop_zero (rs : List RelatedObject) :
    generateRelatedObjectsStr.loop 0 rs ""
      = namespacePart rs ++ String.join (rs.map fun r => relatedEntry r ++ ", ") := by
  cases rs with
  | nil => simp [generateRelatedObjectsStr.loop, String.join, namespacePart]
  | cons r rest =>
    simp only [generateRelatedObjectsStr.loop, true_and, loop_succ, namespacePart,
      List.map_cons, relatedEntry]
    rw [String.join_eq, String.join_eq]
    apply String.ext
    split <;> simp [List.append_assoc]

theorem join_cons (x : String) (xs : List String) :
    String.join (x :: xs) = x ++ String.join xs := by
  rw [String.join_eq, String.join_eq]
  exact String.ext (by simp)

theorem join_nil : String.join [] = "" := rfl

theorem intercalate_go (acc s : String) (l : List String) :
    String.intercalate.go acc s l = acc ++ String.join (l.map fun x => s ++ x) := by
  induction l generalizing acc with
  | nil => simp [String.intercalate.go, join_nil]
  | cons a as ih =>
    simp only [String.intercalate.go, ih, List.map_cons, join_cons, String.append_assoc]

theorem sep_join (s : String) (l : List String) :
    s ++ String.join (l.map fun x => x ++ s) = String.join (l.map fun x => s ++ x) ++ s := by
  induction l with
  | nil => simp [join_nil]
  | cons a as ih =>
    simp only [List.map_cons, join_cons, String.append_assoc, ih]

theorem join_sep_eq_intercalate (e : String) (es : List String) :
    String.join ((e :: es).map fun x => x ++ ", ") = ", ".intercalate (e :: es) ++ ", " := by
  simp only [String.intercalate, intercalate_go, List.map_cons, join_cons, String.append_assoc,
    sep_join]

theorem loop_zero_cons (r : RelatedObject) (rest : List RelatedObject) :
    generateRelatedObjectsStr.loop 0 (r :: rest) ""
      = (namespacePart (r :: rest) ++ ", ".intercalate ((r :: rest).map relatedEntry)) ++ ", " := by
  have h : (r :: rest).map (fun x => relatedEntry x ++ ", ")
      = ((r :: rest).map relatedEntry).map fun x => x ++ ", " := by
    rw [List.map_map]; rfl
  rw [loop_zero, h, List.map_cons, join_sep_eq_intercalate, String.append_assoc]

/-- Claim C5.  `generateRelatedObjectsStr` never panics (the slice that trims
the trailing separator is always in range), and its result is the empty string
exactly when the resource is not workload-typed or has no related object. -/
theorem generateRelatedObjectsStr_empty_iff (workload : WorkloadSummary) :
    ∃ s, generateRelatedObjectsStr workload = some s ∧
      (s = "" ↔ (workload.resource.GetObjectType ≠ ObjectType.TypeWorkloadObject ∨
        workload.resource.GetRelatedObjects = [])) := by
  unfold generateRelatedObjectsStr
  by_cases ht : workload.resource.GetObjectType = ObjectType.TypeWorkloadObject
  · rw [if_pos ht]
    cases hr : workload.resource.GetRelatedObjects with
    | nil =>
      refine ⟨"", ?_, ?_⟩
      · simp [generateRelatedObjectsStr.loop]
      · simp
    | cons r rest =>
      rw [loop_zero_cons]
      simp only [ne_eq, append_sep_ne_empty, not_false_eq_true, if_true, sliceTo_append_sep]
      refine ⟨_, rfl, ?_⟩
      constructor
      · intro h
        have := congrArg String.length h
        simp at this
        exact absurd this.2 (by decide)
      · rintro (h | h)
        · exact absurd ht h
        · exact absurd h (by simp)
  · rw [if_neg ht]
    exact ⟨"", by simp, by simp [ht]⟩

/-- Claim C4, as amended.  For a workload-typed resource with related objects
`r :: rest`, the result is a space, then in square brackets the namespace of
`r` (only when it is not empty) followed by the entries `kind - name` of all
related objects in the supplied order, separated by `", "`. -/
theorem generateRelatedObjectsStr_workload (workload : WorkloadSummary) (r : RelatedObject)
    (rest : List RelatedObject)
    (htype : workload.resource.GetObjectType = ObjectType.TypeWorkloadObject)
    (hrel : workload.resource.GetRelatedObjects = r :: rest) :
    generateRelatedObjectsStr workload
      = some (" [" ++
          ((if r.GetNamespace ≠ "" then "Namespace - " ++ r.GetNamespace ++ ", " else "") ++
            ", ".intercalate ((r :: rest).map fun x => x.GetKind ++ " - " ++ x.GetName)) ++
          "]") := by
  unfold generateRelatedObjectsStr
  rw [if_pos htype, hrel, loop_zero_cons]
  simp only [ne_eq, append_sep_ne_empty, not_false_eq_true, if_true, sliceTo_append_sep]
  rfl

theorem frameworks_loop {σ : Type} (env : Env σ) (fs : List (FrameworkSummary σ)) (n i : Nat)
    (p : String) (h : i + n ≤ fs.length) :
    frameworksScoresToString.loop env fs n i p
      = some (i + n,
          p ++ String.join (((fs.drop i).take n).map fun f => frameworkEntry env f ++ ", ")) := by
  induction n generalizing i p with
  | zero => simp [frameworksScoresToString.loop, join_nil]
  | succ n ih =>
    have hi : i < fs.length := by omega
    have hd : fs.drop i = fs[i] :: fs.drop (i + 1) := List.drop_eq_getElem_cons hi
    have hpiece : fs[i].GetName ++ " (risk: " ++ env.sprintfF2 fs[i].GetScore ++ "), "
        = frameworkEntry env fs[i] ++ ", " := by
      unfold frameworkEntry
      rw [String.append_assoc _ ")" ", "]; rfl
    simp only [frameworksScoresToString.loop, List.getElem?_eq_getElem hi]
    rw [ih (i + 1) _ (by omega), hd, List.take_succ_cons, List.map_cons, join_cons, hpiece,
      String.append_assoc]
    congr 2
    omega

theorem intercalate_concat (sep : String) (l : List String) (x : String) :
    String.join (l.map fun y => y ++ sep) ++ x = sep.intercalate (l ++ [x]) := by
  induction l with
  | nil => simp [String.intercalate, String.intercalate.go, join_nil]
  | cons a l ih =>
    rw [List.map_cons, join_cons, String.append_assoc, String.append_assoc, ih]
    cases l with
    | nil => simp [String.intercalate, String.intercalate.go, String.append_assoc]
    | cons b l =>
      simp only [List.cons_append, String.intercalate, intercalate_go, List.map_cons, join_cons,
        String.append_assoc]

/-- Claim C2.  For two or more frameworks the rollup is `"FRAMEWORKS: "`, then
one entry `<name> (risk: <score, two decimals>)` per framework in input order,
separated by `", "`, then one line terminator. -/
theorem frameworksScoresToString_many {σ : Type} (env : Env σ)
    (frameworks : List (FrameworkSummary σ)) (h : 2 ≤ frameworks.length) :
    frameworksScoresToString env frameworks
      = some ("FRAMEWORKS: " ++
          ", ".intercalate
            (frameworks.map fun f => f.GetName ++ " (risk: " ++ env.sprintfF2 f.GetScore ++ ")")
          ++ "\n") := by
  obtain ⟨init, last, rfl⟩ : ∃ init last, frameworks = init ++ [last] := by
    rcases List.eq_nil_or_concat frameworks with h0 | ⟨init, last, hc⟩
    · rw [h0] at h; simp at h
    · exact ⟨init, last, by simpa using hc⟩
  have hlen : (init ++ [last]).length = init.length + 1 := by simp
  have hlast : (init ++ [last])[init.length]? = some last := by simp
  unfold frameworksScoresToString
  rw [if_neg (by rw [hlen]; rw [hlen] at h; omega), if_pos (by rw [hlen]; omega), hlen,
    Nat.add_sub_cancel, frameworks_loop env _ _ _ _ (by rw [hlen]; omega)]
  simp only [Nat.zero_add, hlast, List.drop_zero, List.take_left']
  have hfin : last.GetName ++ " (risk: " ++ env.sprintfF2 last.GetScore ++ ")\n"
      = frameworkEntry env last ++ "\n" := by
    unfold frameworkEntry
    rw [String.append_assoc _ ")" "\n"]; rfl
  have hmap : (init ++ [last]).map
        (fun f => f.GetName ++ " (risk: " ++ env.sprintfF2 f.GetScore ++ ")")
      = (init.map (frameworkEntry env)) ++ [frameworkEntry env last] := by
    simp [frameworkEntry]
  have hj : init.map (fun f => frameworkEntry env f ++ ", ")
      = (init.map (frameworkEntry env)).map fun y => y ++ ", " := by
    rw [List.map_map]; rfl
  rw [hfin, hmap, ← intercalate_concat, hj]
  simp only [String.append_assoc]

/-- Claim C3, as amended.  For exactly one framework the rollup is
`"FRAMEWORK "`, the name and a line terminator, without a score, when the name
is not empty; when the name is empty the rollup is the empty string. -/
theorem frameworksScoresToString_single {σ : Type} (env : Env σ) (f : FrameworkSummary σ) :
    frameworksScoresToString env [f]
      = some (if f.GetName ≠ "" then "FRAMEWORK " ++ f.GetName ++ "\n" else "") := by
  unfold frameworksScoresToString
  by_cases h : f.GetName = "" <;> simp [h]

theorem setIndex_eq (row : List String) (i : Nat) (v : String) (h : i < row.length) :
    setIndex row i v = some (row.set i v) := by
  simp [setIndex, h]

theorem foldl_set_length (cells : List (Nat × String)) (row : List String) :
    (cells.foldl (fun r c => r.set c.1 c.2) row).length = row.length := by
  induction cells generalizing row with
  | nil => rfl
  | cons d rest ih => simp [List.foldl_cons, ih]

theorem foldl_set_other (cells : List (Nat × String)) (row : List String) (i : Nat)
    (hi : i ∉ cells.map Prod.fst) :
    (cells.foldl (fun r c => r.set c.1 c.2) row)[i]? = row[i]? := by
  induction cells generalizing row with
  | nil => rfl
  | cons d rest ih =>
    simp only [List.map_cons, List.mem_cons, not_or] at hi
    rw [List.foldl_cons, ih _ hi.2, List.getElem?_set_ne (Ne.symm hi.1)]

theorem foldl_set_cell (cells : List (Nat × String)) (row : List String)
    (hnd : (cells.map Prod.fst).Nodup) (hlt : ∀ c ∈ cells, c.1 < row.length) :
    ∀ c ∈ cells, (cells.foldl (fun r c => r.set c.1 c.2) row)[c.1]? = some c.2 := by
  induction cells generalizing row with
  | nil => intro c hc; cases hc
  | cons d rest ih =>
    intro c hc
    rw [List.map_cons, List.nodup_cons] at hnd
    rw [List.foldl_cons]
    rcases List.mem_cons.1 hc with rfl | hc
    · rw [foldl_set_other _ _ _ hnd.1, List.getElem?_set_self (hlt c (List.mem_cons_self _ _))]
    · exact ih _ hnd.2 (fun x hx => by
        rw [List.length_set]; exact hlt x (List.mem_cons_of_mem _ hx)) c hc

theorem generateFooter_eq {σ : Type} (env : Env σ) (sd : SummaryDetails σ)
    (h : env.columnsWellFormed) :
    generateFooter env sd = some
      ((footerCells env sd).foldl (fun row c => row.set c.1 c.2)
        (List.replicate env._rowLen "")) := by
  obtain ⟨_, _, hlt⟩ := h
  simp only [List.mem_cons, List.mem_singleton, forall_eq_or_imp, forall_eq, List.not_mem_nil,
    false_implies, and_true, IsEmpty.forall_iff] at hlt
  obtain ⟨h1, h2, h3, h4, h5, h6, h7⟩ := hlt
  unfold generateFooter
  simp only []
  rw [setIndex_eq _ _ _ (by simpa using h1)]
  simp only [Option.bind_eq_bind, Option.some_bind]
  rw [setIndex_eq _ _ _ (by simpa using h2)]
  simp only [Option.some_bind]
  rw [setIndex_eq _ _ _ (by simpa using h3)]
  simp only [Option.some_bind]
  rw [setIndex_eq _ _ _ (by simpa using h4)]
  simp only [Option.some_bind]
  rw [setIndex_eq _ _ _ (by simpa using h5)]
  simp only [Option.some_bind]
  rw [setIndex_eq _ _ _ (by simpa using h6)]
  simp only [Option.some_bind]
  rw [setIndex_eq _ _ _ (by simpa using h7)]
  rfl

/-- Claim C6.  With the seven column constants indexing seven different cells,
`generateFooter` returns a row of seven cells: the name cell is
`"Resource Summary"`, the failed, excluded and total cells are the decimal
renderings of the report-wide counters, the severity and info cells are `" "`,
the risk-score cell is the report score with two decimals followed by `"%"`;
and a report with the same counters and score has the same footer, whatever
its controls and frameworks. -/
theorem generateFooter_row {σ : Type} (env : Env σ) (summaryDetails : SummaryDetails σ)
    (h : env.columnsWellFormed) :
    ∃ row, generateFooter env summaryDetails = some row ∧
      row.length = 7 ∧
      row[env.columnName]? = some "Resource Summary" ∧
      row[env.columnCounterFailed]? = some (toString summaryDetails.NumberOfResources.Failed) ∧
      row[env.columnCounterExclude]? = some (toString summaryDetails.NumberOfResources.Excluded) ∧
      row[env.columnCounterAll]? = some (toString summaryDetails.NumberOfResources.All) ∧
      row[env.columnSeverity]? = some " " ∧
      row[env.columnInfo]? = some " " ∧
      row[env.columnRiskScore]? = some (env.sprintfF2 summaryDetails.Score ++ "%") ∧
      ∀ other : SummaryDetails σ,
        other.NumberOfResources = summaryDetails.NumberOfResources →
        other.Score = summaryDetails.Score →
        generateFooter env other = some row := by
  refine ⟨_, generateFooter_eq env summaryDetails h, ?_⟩
  obtain ⟨hlen, hnd, hlt⟩ := h
  have hcell := foldl_set_cell (footerCells env summaryDetails) (List.replicate env._rowLen "")
    hnd (fun c hc => by
      rw [List.length_replicate]
      exact hlt c.1 (List.mem_map_of_mem Prod.fst hc))
  refine ⟨by rw [foldl_set_length, List.length_replicate, hlen],
    hcell (_, _) (by simp [footerCells]), hcell (_, _) (by simp [footerCells]),
    hcell (_, _) (by simp [footerCells]), hcell (_, _) (by simp [footerCells]),
    hcell (_, _) (by simp [footerCells]), hcell (_, _) (by simp [footerCells]),
    hcell (_, _) (by simp [footerCells]), ?_⟩
  intro other ho hs
  rw [generateFooter_eq env other ⟨hlen, hnd, hlt⟩]
  simp only [footerCells, ho, hs]

theorem generateRelatedObjectsStr_eq (workload : WorkloadSummary) :
    generateRelatedObjectsStr workload = some (relatedSuffix workload) := by
  unfold generateRelatedObjectsStr relatedSuffix
  cases ht : workload.resource.GetObjectType with
  | TypeWorkloadObject =>
    cases hr : workload.resource.GetRelatedObjects with
    | nil => simp [generateRelatedObjectsStr.loop]
    | cons r rest =>
      simp only [if_true, loop_zero_cons, ne_eq, append_sep_ne_empty, not_false_eq_true,
        sliceTo_append_sep]
  | other tag => simp

theorem collect_eq (indent : String) (rsc : List WorkloadSummary) (acc : List String) :
    printGroupedResource.collect indent rsc acc
      = some (acc ++ rsc.map fun r => memberLine indent r (relatedSuffix r)) := by
  induction rsc generalizing acc with
  | nil => simp [printGroupedResource.collect]
  | cons r rest ih =>
    simp only [printGroupedResource.collect, generateRelatedObjectsStr_eq, ih, List.map_cons,
      List.append_assoc, List.singleton_append, memberLine]

theorem emit_eq (lines : List String) (w : Trace) :
    printGroupedResource.emit lines w = w ++ lines.map lineEvent := by
  induction lines generalizing w with
  | nil => simp [printGroupedResource.emit]
  | cons l rest ih =>
    simp only [printGroupedResource.emit, ih, cautils, List.map_cons, List.append_assoc,
      List.singleton_append, lineEvent]

theorem printGroupedResource_eq (indent title : String) (rsc : List WorkloadSummary) (w : Trace) :
    printGroupedResource indent title rsc w
      = .ok (w ++
          ((if title ≠ "" then
              [Event.display .SimpleDisplay "%s%s\n" [.str indent, .str title]] else []) ++
            (sortStrings (rsc.map fun r =>
              memberLine (if title ≠ "" then indent ++ indent else indent) r
                (relatedSuffix r))).map lineEvent)) := by
  unfold printGroupedResource
  simp only [collect_eq, List.nil_append, emit_eq, cautils]
  by_cases h : title = "" <;> simp [h]

theorem printGroupedResource_block (indent title : String) (rsc : List WorkloadSummary)
    (w : Trace) :
    printGroupedResource indent title rsc w = .ok (w ++ groupBlock indent title rsc) := by
  unfold groupBlock
  rw [printGroupedResource_eq, printGroupedResource_eq]
  simp [written]

theorem printGroupedResources_eq (workloads : Groups) (w : Trace) :
    printGroupedResources workloads w
      = .ok (w ++ (workloads.map fun g => groupBlock "  " g.1 g.2).flatten) := by
  induction workloads generalizing w with
  | nil => simp [printGroupedResources]
  | cons g rest ih =>
    obtain ⟨title, rsc⟩ := g
    simp only [printGroupedResources, printGroupedResource_block, Except.bind, ih, List.map_cons,
      List.flatten_cons, List.append_assoc]

theorem printTitle_some {σ : Type} (env : Env σ) (c : ControlSummary) (w : Trace) :
    printTitle env (some c) w = .ok (w ++ titleBlock env c) := by
  obtain ⟨name, id, descr, rem, ⟨st, sk, fl, info⟩, cnt⟩ := c
  unfold titleBlock printTitle
  cases st <;> by_cases h : info = "" <;> simp [h, cautils, written]

theorem printSummary_some (name : String) (c : ControlSummary) (w : Trace) :
    printSummary name (some c) w = .ok (w ++ summaryBlock c) := by
  obtain ⟨cname, id, descr, rem, ⟨st, sk, fl, info⟩, cnt⟩ := c
  unfold summaryBlock printSummary
  cases sk <;> cases fl <;> simp [cautils, written]

theorem section_eq (fn : Display) (header : String) (workloads : Groups) (w : Trace) :
    (if workloads.length > 0 then
        printGroupedResources workloads (cautils w fn header [])
      else .ok w) = .ok (w ++ sectionBlock fn header workloads) := by
  unfold sectionBlock
  by_cases h : workloads.length > 0
  · simp only [h, if_true, printGroupedResources_eq, cautils, List.append_assoc,
      List.singleton_append]
  · simp [h]

theorem printResources_sections {σ : Type} (env : Env σ) (pp : PrettyPrinter)
    (controlSummary : Option ControlSummary) (allResources : AllResources) (w : Trace) :
    printResources env pp controlSummary allResources w
      = .ok (w ++
          (sectionBlock .FailureDisplay "Failed:\n"
              (env.groupByNamespaceOrKind (env.listResultSummary controlSummary allResources)
                env.workloadSummaryFailed) ++
            sectionBlock .WarningDisplay "Excluded:\n"
              (env.groupByNamespaceOrKind (env.listResultSummary controlSummary allResources)
                env.workloadSummaryExclude) ++
            sectionBlock .SuccessDisplay "Passed:\n"
              (if pp.verboseMode then
                env.groupByNamespaceOrKind (env.listResultSummary controlSummary allResources)
                  env.workloadSummaryPassed
              else []))) := by
  unfold printResources
  simp only [section_eq, Except.bind, List.append_assoc]

theorem printResources_eq {σ : Type} (env : Env σ) (pp : PrettyPrinter)
    (controlSummary : Option ControlSummary) (allResources : AllResources) (w : Trace) :
    printResources env pp controlSummary allResources w
      = .ok (w ++ resourcesBlock env pp controlSummary allResources) := by
  unfold resourcesBlock
  rw [printResources_sections, printResources_sections]
  simp [written]

theorem body_some {σ : Type} (env : Env σ) (pp : PrettyPrinter) (controls : ControlSummaries)
    (allResources : AllResources) (c : String) (cs : ControlSummary) (w : Trace)
    (h : controls.GetControl c = some cs) :
    printResults.body env pp controls allResources c w
      = .ok (w ++ (titleBlock env cs ++ resourcesBlock env pp (some cs) allResources ++
          summaryBlock cs)) := by
  unfold printResults.body
  simp only [h, printTitle_some, printResources_eq, printSummary_some, Except.bind,
    List.append_assoc]

theorem inner_foldlM {σ : Type} (env : Env σ) (pp : PrettyPrinter) (controls : ControlSummaries)
    (allResources : AllResources) (bucket : List String) (w : Trace) :
    printResults.inner env pp controls allResources bucket w
      = bucket.foldlM (fun w c => printResults.body env pp controls allResources c w) w := by
  induction bucket generalizing w with
  | nil => rfl
  | cons c rest ih =>
    rw [printResults.inner, List.foldlM_cons]
    cases h : printResults.body env pp controls allResources c w with
    | error e => rfl
    | ok w1 => exact ih w1

theorem take_succ_walk (names : List (List String)) (i : Nat) (h : i < names.length) :
    walkOrder (names.take (i + 1)) = names[i] ++ walkOrder (names.take i) := by
  have ht : names.take (i + 1) = names.take i ++ [names[i]] := by
    rw [List.take_succ, List.getElem?_eq_getElem h]; rfl
  unfold walkOrder
  rw [ht, List.reverse_append, List.reverse_singleton, List.singleton_append, List.flatten_cons]

theorem outer_foldlM {σ : Type} (env : Env σ) (pp : PrettyPrinter) (controls : ControlSummaries)
    (allResources : AllResources) (names : List (List String)) (n : Nat) (w : Trace)
    (h : n ≤ names.length) :
    printResults.outer env pp controls allResources names n w
      = (walkOrder (names.take n)).foldlM
          (fun w c => printResults.body env pp controls allResources c w) w := by
  induction n generalizing w with
  | zero => rfl
  | succ i ih =>
    have hi : i < names.length := h
    rw [printResults.outer, List.getElem?_eq_getElem hi, take_succ_walk names i hi,
      List.foldlM_append]
    simp only [inner_foldlM]
    cases hb : List.foldlM (fun w c => printResults.body env pp controls allResources c w) w
        names[i] with
    | error e => rfl
    | ok w1 => exact ih w1 (Nat.le_of_lt hi)

theorem printResults_foldlM {σ : Type} (env : Env σ) (pp : PrettyPrinter)
    (controls : ControlSummaries) (allResources : AllResources) (names : List (List String))
    (w : Trace) :
    printResults env pp controls allResources names w
      = (walkOrder names).foldlM
          (fun w c => printResults.body env pp controls allResources c w) w := by
  unfold printResults
  rw [outer_foldlM _ _ _ _ _ _ _ (Nat.le_refl _), List.take_length]

theorem table_inner {σ : Type} (env : Env σ) (pp : PrettyPrinter) (sd : SummaryDetails σ)
    (bucket : List String) (w : Trace) :
    printSummaryTable.inner env pp sd (env.mapInfoToPrintInfo sd.Controls) bucket w
      = w ++ (bucket.filterMap (offeredRow env pp sd)).map fun row =>
          Event.table (.Append row) := by
  induction bucket generalizing w with
  | nil => simp [printSummaryTable.inner]
  | cons c rest ih =>
    rw [printSummaryTable.inner]
    simp only [ih, List.filterMap_cons, offeredRow]
    split <;> simp

theorem table_outer {σ : Type} (env : Env σ) (pp : PrettyPrinter) (sd : SummaryDetails σ)
    (names : List (List String)) (n : Nat) (w : Trace) (h : n ≤ names.length) :
    printSummaryTable.outer env pp sd (env.mapInfoToPrintInfo sd.Controls) names n w
      = .ok (w ++ ((walkOrder (names.take n)).filterMap (offeredRow env pp sd)).map fun row =>
          Event.table (.Append row)) := by
  induction n generalizing w with
  | zero => simp [printSummaryTable.outer, walkOrder]
  | succ i ih =>
    have hi : i < names.length := h
    rw [printSummaryTable.outer, List.getElem?_eq_getElem hi, take_succ_walk names i hi]
    simp only [table_inner, ih _ (Nat.le_of_lt hi), List.filterMap_append, List.map_append,
      List.append_assoc]

theorem printInfo_eq (info : List InfoStars) (w : Trace) :
    printInfo info w = w ++ Event.println ::
      info.map fun x => Event.display .InfoDisplay (x.stars ++ " " ++ x.info ++ "\n") [] := by
  have hloop : ∀ (l : List InfoStars) (w : Trace), printInfo.loop l w
      = w ++ l.map fun x => Event.display .InfoDisplay (x.stars ++ " " ++ x.info ++ "\n") [] := by
    intro l
    induction l with
    | nil => intro w; simp [printInfo.loop]
    | cons x rest ih => intro w; simp [printInfo.loop, ih, cautils]
  simp [printInfo, hloop]

theorem printInfo_no_row (info : List InfoStars) (w : Trace) :
    (printInfo info w).filterMap appendedRow = w.filterMap appendedRow := by
  rw [printInfo_eq, List.filterMap_append]
  simp [List.filterMap_map, appendedRow, Function.comp_def]

theorem appendedRow_comp :
    (appendedRow ∘ fun row => Event.table (TableCall.Append row)) = some := rfl

theorem printSummaryTable_rows {σ : Type} (env : Env σ) (pp : PrettyPrinter)
    (sd : SummaryDetails σ) (names : List (List String)) (w : Trace) :
    (written (printSummaryTable env pp sd names w)).filterMap appendedRow
      = w.filterMap appendedRow ++ (walkOrder names).filterMap (offeredRow env pp sd) := by
  unfold printSummaryTable
  simp only [table_outer _ _ _ _ _ _ (Nat.le_refl _), List.take_length, Except.bind]
  cases generateFooter env sd with
  | none =>
    simp [written, List.filterMap_append, appendedRow, appendedRow_comp]
  | some footer =>
    cases frameworksScoresToString env sd.ListFrameworks with
    | none => simp [written, List.filterMap_append, appendedRow, appendedRow_comp]
    | some s =>
      simp [written, printInfo_no_row, cautils, List.filterMap_append, appendedRow, appendedRow_comp]

theorem sectionBlock_eq_nil (fn : Display) (header : String) (workloads : Groups) :
    sectionBlock fn header workloads = [] ↔ workloads = [] := by
  unfold sectionBlock
  cases workloads with
  | nil => simp
  | cons g rest => simp

/-- Claim C7, as amended.  For a control whose status reports `IsSkipped`,
`printSummary` prints nothing, so there is no `"Summary - "` line.
`printResources` does not look at the status: it prints no resource listing
exactly when `listResultSummary` yields no failed group, no excluded group and,
in verbose mode, no passed group for the control.  In the walk the block of the
control is what `printTitle` and `printResources` print for it. -/
theorem skipped_control_output {σ : Type} (env : Env σ) (pp : PrettyPrinter)
    (c : ControlSummary) (allResources : AllResources) (w : Trace)
    (h : c.GetStatus.IsSkipped = true) :
    printSummary c.GetName (some c) w = .ok w ∧
    (printResources env pp (some c) allResources w = .ok w ↔
      env.groupByNamespaceOrKind (env.listResultSummary (some c) allResources)
          env.workloadSummaryFailed = [] ∧
        env.groupByNamespaceOrKind (env.listResultSummary (some c) allResources)
          env.workloadSummaryExclude = [] ∧
        (pp.verboseMode = true →
          env.groupByNamespaceOrKind (env.listResultSummary (some c) allResources)
            env.workloadSummaryPassed = [])) ∧
    ∀ (controls : ControlSummaries) (name : String), controls.GetControl name = some c →
      printResults.body env pp controls allResources name w
        = .ok (w ++ (written (printTitle env (some c) []) ++
            written (printResources env pp (some c) allResources []))) := by
  have hs : summaryBlock c = [] := by
    simp [summaryBlock, printSummary, h, written]
  refine ⟨by simp [printSummary, h], ?_, ?_⟩
  · rw [printResources_sections]
    constructor
    · intro hw
      have hnil := List.append_right_eq_self.1 (Except.ok.inj hw)
      simp only [List.append_eq_nil, sectionBlock_eq_nil] at hnil
      refine ⟨hnil.1.1, hnil.1.2, fun hv => ?_⟩
      simpa [hv] using hnil.2
    · rintro ⟨h1, h2, h3⟩
      rw [h1, h2]
      cases hv : pp.verboseMode with
      | false => simp [sectionBlock]
      | true => simp [sectionBlock, h3 hv]
  · intro controls name hname
    rw [body_some _ _ _ _ _ _ _ hname, hs, List.append_nil]
    rfl

/-- Claim C2, on the frameworks `A` (score 1.5) and `B` (score 2.25). -/
theorem frameworksScoresToString_many_witness :
    2 ≤ sampleSummary.ListFrameworks.length ∧
    frameworksScoresToString sampleEnv sampleSummary.ListFrameworks
      = some "FRAMEWORKS: A (risk: 1.50), B (risk: 2.25)\n" :=
  ⟨by decide,
    (frameworksScoresToString_many sampleEnv sampleSummary.ListFrameworks (by decide)).trans
      (by decide)⟩

/-- Claim C3 fails for a framework with an empty name: the rollup is the empty
string, not `"FRAMEWORK \n"`. -/
theorem frameworksScoresToString_single_empty_name :
    frameworksScoresToString sampleEnv [{ GetName := "", GetScore := ⟨false, 3, 1⟩ }] = some "" ∧
    frameworksScoresToString sampleEnv [{ GetName := "", GetScore := ⟨false, 3, 1⟩ }]
      ≠ some ("FRAMEWORK " ++ "" ++ "\n") := by
  decide

/-- Claim C4 fails on the related objects `{a, Pod, x}`, `{ReplicaSet, y}`: the
result starts with a space before the opening bracket. -/
theorem generateRelatedObjectsStr_leading_space :
    generateRelatedObjectsStr workloadX = some " [Namespace - a, Pod - x, ReplicaSet - y]" ∧
    generateRelatedObjectsStr workloadX ≠ some "[Namespace - a, Pod - x, ReplicaSet - y]" := by
  decide

/-- Claim C4 as amended, on the related objects `{a, Pod, x}`, `{ReplicaSet, y}`. -/
theorem generateRelatedObjectsStr_workload_witness :
    workloadX.resource.GetObjectType = ObjectType.TypeWorkloadObject ∧
    workloadX.resource.GetRelatedObjects = [⟨"a", "Pod", "x"⟩, ⟨"", "ReplicaSet", "y"⟩] ∧
    generateRelatedObjectsStr workloadX = some " [Namespace - a, Pod - x, ReplicaSet - y]" :=
  ⟨rfl, rfl,
    (generateRelatedObjectsStr_workload workloadX ⟨"a", "Pod", "x"⟩ [⟨"", "ReplicaSet", "y"⟩]
      rfl rfl).trans (by decide)⟩

/-- Claim C6, on the sample report (failed 2, excluded 0, all 5, score 1.5). -/
theorem generateFooter_row_witness :
    sampleEnv.columnsWellFormed ∧
    ∃ row, generateFooter sampleEnv sampleSummary = some row ∧
      row = ["Resource Summary", "2", "0", "5", " ", "1.50%", " "] :=
  ⟨by decide,
    (generateFooter_row sampleEnv sampleSummary (by decide)).imp fun _ h =>
      ⟨h.1, Option.some.inj (h.1.symm.trans (by decide))⟩⟩

/-- Claim C7 fails on a skipped control for which `listResultSummary` returns a
failed workload: `printResources` prints the `"Failed:"` header, the group
header and the resource line. -/
theorem skipped_control_with_resources :
    controlS.GetStatus.Status = ScanningStatus.StatusSkipped ∧
    controlS.GetStatus.IsSkipped = true ∧
    printResources sampleEnv samplePrinter (some controlS) [("p", podX)] []
      = .ok [Event.display .FailureDisplay "Failed:\n" [],
          Event.display .SimpleDisplay "%s%s\n" [.str "  ", .str "a"],
          Event.display .SimpleDisplay
            "    Pod - x  [Namespace - a, Pod - x, ReplicaSet - y]\n" []] :=
  ⟨rfl, rfl, rfl⟩

/-- Claim C7 as amended, on the skipped sample control without resources. -/
theorem skipped_control_output_witness :
    controlS.GetStatus.IsSkipped = true ∧
    printSummary "S" (some controlS) [] = .ok [] ∧
    printResources sampleEnv samplePrinter (some controlS) [] [] = .ok [] :=
  ⟨rfl, (skipped_control_output sampleEnv samplePrinter controlS [] [] rfl).1,
    (skipped_control_output sampleEnv samplePrinter controlS [] [] rfl).2.1.2
      ⟨rfl, rfl, fun _ => rfl⟩⟩

/-- Claim C9 at the map with the two groups `a` and `b`: the two enumerations
of its entries print the two group blocks in different orders, so the output
depends on the enumeration order. -/
theorem printGroupedResources_order_matters :
    List.Perm [("a", [workloadX]), ("b", [workloadY])] [("b", [workloadY]), ("a", [workloadX])] ∧
    printGroupedResources [("a", [workloadX]), ("b", [workloadY])] []
      = .ok [Event.display .SimpleDisplay "%s%s\n" [.str "  ", .str "a"],
          Event.display .SimpleDisplay
            "    Pod - x  [Namespace - a, Pod - x, ReplicaSet - y]\n" [],
          Event.display .SimpleDisplay "%s%s\n" [.str "  ", .str "b"],
          Event.display .SimpleDisplay "    Node - y \n" []] ∧
    printGroupedResources [("b", [workloadY]), ("a", [workloadX])] []
      = .ok [Event.display .SimpleDisplay "%s%s\n" [.str "  ", .str "b"],
          Event.display .SimpleDisplay "    Node - y \n" [],
          Event.display .SimpleDisplay "%s%s\n" [.str "  ", .str "a"],
          Event.display .SimpleDisplay
            "    Pod - x  [Namespace - a, Pod - x, ReplicaSet - y]\n" []] ∧
    printGroupedResources [("a", [workloadX]), ("b", [workloadY])] []
      ≠ printGroupedResources [("b", [workloadY]), ("a", [workloadX])] [] := by
  refine ⟨List.Perm.swap _ _ _, rfl, rfl, fun h => ?_⟩
  have hw := congrArg written h
  revert hw
  decide

theorem titleBlock_eq {σ : Type} (env : Env σ) (c : ControlSummary) :
    titleBlock env c = titleEvents env c := by
  obtain ⟨name, id, descr, rem, ⟨st, sk, fl, info⟩, cnt⟩ := c
  unfold titleBlock printTitle titleEvents
  cases st <;> by_cases h : info = "" <;>
    simp [h, cautils, written, statusEvent, getControlLink]

theorem summaryBlock_eq (c : ControlSummary) : summaryBlock c = summaryEvents c := by
  obtain ⟨cname, id, descr, rem, ⟨st, sk, fl, info⟩, cnt⟩ := c
  unfold summaryBlock printSummary summaryEvents
  cases sk <;> cases fl <;> simp [cautils, written]

theorem groupBlock_eq (title : String) (rsc : List WorkloadSummary) :
    groupBlock "  " title rsc = groupEvents title rsc := by
  unfold groupBlock groupEvents
  rw [printGroupedResource_eq]
  by_cases h : title = "" <;> simp [h, written]

theorem sectionBlock_eq (fn : Display) (header : String) (workloads : Groups) :
    sectionBlock fn header workloads = sectionEvents fn header workloads := by
  cases workloads with
  | nil => simp [sectionBlock, sectionEvents]
  | cons g rest =>
    simp [sectionBlock, sectionEvents, groupBlock_eq, List.flatMap_def]

theorem resourcesBlock_eq {σ : Type} (env : Env σ) (pp : PrettyPrinter)
    (allResources : AllResources) (c : ControlSummary) :
    resourcesBlock env pp (some c) allResources = resourcesEvents env pp allResources c := by
  unfold resourcesBlock resourcesEvents
  rw [printResources_sections]
  simp [written, sectionBlock_eq]

theorem body_events {σ : Type} (env : Env σ) (pp : PrettyPrinter) (controls : ControlSummaries)
    (allResources : AllResources) (c : String) (cs : ControlSummary) (w : Trace)
    (h : controls.GetControl c = some cs) :
    printResults.body env pp controls allResources c w
      = .ok (w ++ controlEvents env pp allResources cs) := by
  rw [body_some _ _ _ _ _ _ _ h, titleBlock_eq, resourcesBlock_eq, summaryBlock_eq]
  rfl

theorem foldlM_events {σ : Type} (env : Env σ) (pp : PrettyPrinter) (controls : ControlSummaries)
    (allResources : AllResources) (l : List String) (w : Trace)
    (h : ∀ c ∈ l, (controls.GetControl c).isSome) :
    l.foldlM (fun w c => printResults.body env pp controls allResources c w) w
      = .ok (w ++ (l.filterMap controls.GetControl).flatMap
          (controlEvents env pp allResources)) := by
  induction l generalizing w with
  | nil => simp; rfl
  | cons c rest ih =>
    obtain ⟨cs, hcs⟩ := Option.isSome_iff_exists.1 (h c (List.mem_cons_self _ _))
    rw [List.foldlM_cons, body_events _ _ _ _ _ _ _ hcs]
    simp only [List.filterMap_cons, hcs, List.flatMap_cons, ← List.append_assoc]
    exact ih _ fun x hx => h x (List.mem_cons_of_mem _ hx)

theorem titled_lines (lines : List String) :
    (lines.map lineEvent).filterMap titledControl = [] := by
  induction lines with
  | nil => rfl
  | cons l rest ih => simp [lineEvent, titledControl]

theorem titled_group (title : String) (rsc : List WorkloadSummary) :
    (groupEvents title rsc).filterMap titledControl = [] := by
  unfold groupEvents
  rw [List.filterMap_append, titled_lines]
  by_cases h : title = "" <;> simp [h, titledControl]

theorem titled_section (fn : Display) (header : String) (workloads : Groups) :
    (sectionEvents fn header workloads).filterMap titledControl = [] := by
  have hg : ∀ l : Groups, (l.flatMap fun x => groupEvents x.1 x.2).filterMap titledControl = [] := by
    intro l
    induction l with
    | nil => rfl
    | cons g rest ih => rw [List.flatMap_cons, List.filterMap_append, titled_group, ih]; rfl
  cases workloads with
  | nil => rfl
  | cons g rest =>
    unfold sectionEvents
    rw [List.filterMap_cons, hg]
    simp [titledControl]

theorem titled_control {σ : Type} (env : Env σ) (pp : PrettyPrinter)
    (allResources : AllResources) (c : ControlSummary) :
    (controlEvents env pp allResources c).filterMap titledControl = [c.GetName] := by
  unfold controlEvents resourcesEvents
  simp only [List.filterMap_append, titled_section, List.append_nil]
  obtain ⟨cname, id, descr, rem, ⟨st, sk, fl, info⟩, cnt⟩ := c
  unfold titleEvents summaryEvents
  cases st <;> cases sk <;> cases fl <;> by_cases h : info = "" <;>
    simp [h, titledControl, statusEvent]

theorem titled_controls {σ : Type} (env : Env σ) (pp : PrettyPrinter)
    (allResources : AllResources) (l : List ControlSummary) :
    (l.flatMap (controlEvents env pp allResources)).filterMap titledControl
      = l.map fun c => c.GetName := by
  induction l with
  | nil => rfl
  | cons c rest ih =>
    rw [List.flatMap_cons, List.filterMap_append, titled_control, ih]
    rfl

theorem offered_rows {σ : Type} (env : Env σ) (pp : PrettyPrinter) (sd : SummaryDetails σ)
    (l : List String) (h : ∀ c ∈ l, (sd.Controls.GetControl c).isSome) :
    l.filterMap (offeredRow env pp sd)
      = ((l.filterMap sd.Controls.GetControl).map fun c =>
          env.generateRow (some c) (env.mapInfoToPrintInfo sd.Controls) pp.verboseMode).filter
          fun row => row.length > 0 := by
  induction l with
  | nil => rfl
  | cons c rest ih =>
    obtain ⟨cs, hcs⟩ := Option.isSome_iff_exists.1 (h c (List.mem_cons_self _ _))
    have ih' := ih fun x hx => h x (List.mem_cons_of_mem _ hx)
    simp only [List.filterMap_cons, hcs, List.map_cons, List.filter_cons, offeredRow]
    by_cases hr : (env.generateRow (some cs) (env.mapInfoToPrintInfo sd.Controls)
        pp.verboseMode).length > 0
    · simp only [hr, if_true, decide_True]
      exact congrArg _ ih'
    · simp only [hr, if_false, decide_False]
      exact ih'

/-- Claim C1, as amended.  When every name of the bucket list resolves,
`printResults` returns and has printed, for the controls taken buckets from the
last to the first and each bucket in its own order, the block of each control
(title, resource listing, summary), so the names shown by the title calls are
the names of these controls in that order; and the rows that
`printSummaryTable` appends to the table are the rows that `generateRow` gives
for the same sequence of controls, the empty ones left out, in the same order. -/
theorem walk_and_table_same_order {σ : Type} (env : Env σ) (pp : PrettyPrinter)
    (summaryDetails : SummaryDetails σ) (allResources : AllResources)
    (sortedControlNames : List (List String)) (w : Trace)
    (h : ∀ c ∈ sortedControlNames.reverse.flatten,
      (summaryDetails.Controls.GetControl c).isSome) :
    printResults env pp summaryDetails.Controls allResources sortedControlNames w
      = .ok (w ++ (walkControls summaryDetails.Controls sortedControlNames).flatMap
          (controlEvents env pp allResources)) ∧
    (walkControls summaryDetails.Controls sortedControlNames).length
      = (sortedControlNames.reverse.flatten).length ∧
    ((walkControls summaryDetails.Controls sortedControlNames).flatMap
        (controlEvents env pp allResources)).filterMap titledControl
      = (walkControls summaryDetails.Controls sortedControlNames).map
          (fun c => c.GetName) ∧
    (written (printSummaryTable env pp summaryDetails sortedControlNames w)).filterMap appendedRow
      = w.filterMap appendedRow ++
        ((walkControls summaryDetails.Controls sortedControlNames).map fun c =>
          env.generateRow (some c) (env.mapInfoToPrintInfo summaryDetails.Controls)
            pp.verboseMode).filter fun row => row.length > 0 := by
  refine ⟨?_, ?_, titled_controls _ _ _ _, ?_⟩
  · rw [printResults_foldlM]
    exact foldlM_events _ _ _ _ _ _ h
  · unfold walkControls
    generalize sortedControlNames.reverse.flatten = l at h
    induction l with
    | nil => rfl
    | cons c rest ih =>
      obtain ⟨cs, hcs⟩ := Option.isSome_iff_exists.1 (h c (List.mem_cons_self _ _))
      simp only [List.filterMap_cons, hcs, List.length_cons]
      exact congrArg _ (ih fun x hx => h x (List.mem_cons_of_mem _ hx))
  · rw [printSummaryTable_rows]
    exact congrArg _ (offered_rows _ _ _ _ h)

/-- Claim C1 fails on the buckets `[["A"], ["ghost"]]` where `ghost` does not
resolve: the walk stops at `ghost` and prints no control, while the table is
offered the row of control `A`. -/
theorem walk_stops_table_continues :
    sampleSummary.Controls.GetControl "ghost" = none ∧
    written (printResults sampleEnv samplePrinter sampleSummary.Controls []
      [["A"], ["ghost"]] []) = [] ∧
    (written (printSummaryTable sampleEnv samplePrinter sampleSummary
      [["A"], ["ghost"]] [])).filterMap appendedRow = [["A"]] := by
  decide

/-- Claim C1 as amended, on the buckets `[["S"], ["A"]]` with one workload in
the resource lookup: the walk shows control `A`, then control `S`, and the
table is offered the row of `A` only (the row of `S` is empty). -/
theorem walk_and_table_same_order_witness :
    (∀ c ∈ [["S"], ["A"]].reverse.flatten, (sampleSummary.Controls.GetControl c).isSome) ∧
    (written (printResults sampleEnv samplePrinter sampleSummary.Controls [("p", podX)]
      [["S"], ["A"]] [])).filterMap titledControl = ["A", "S"] ∧
    (written (printSummaryTable sampleEnv samplePrinter sampleSummary
      [["S"], ["A"]] [])).filterMap appendedRow = [["A"]] :=
  ⟨by decide,
    (congrArg (fun r => (written r).filterMap titledControl)
      (walk_and_table_same_order sampleEnv samplePrinter sampleSummary [("p", podX)]
        [["S"], ["A"]] [] (by decide)).1).trans (by decide),
    (walk_and_table_same_order sampleEnv samplePrinter sampleSummary [("p", podX)]
      [["S"], ["A"]] [] (by decide)).2.2.2.trans (by decide)⟩

end PrettyPrinterV2
